import Mathlib

/-!
Verification of the custom RAG engine core against its specification.

The development shallowly embeds the Python sources of the repository:

* `vector_store.py` — chunking (`chunk_text`), indexing (`add_document`,
  `add_documents`) and nearest-neighbor retrieval (`query`);
* `mcp_server_unified.py` / `mcp/vector_store_mcp.py` — the tool layer that
  exposes the store over the transport boundary (`tool_search_documents`);
* `agent_nodes.py` and `agent_nodes_mcp.py` — the query-routing state
  machine (`master_agent_node`, `retrieval_node`, routing functions);
* the auto-start transport client, which is called from `agent_nodes_mcp.py`,
  `index.py` and `mcp_manager.py` but whose implementation is not part of the
  sources; it is modelled from the specification (section 4.3).

Python text is modelled as `List Char`; machine floats of the embedding
backend are abstracted to `Int`-valued distances supplied by an oracle
function, since none of the verified claims depend on the numeric values.
A loop whose termination depends on the inputs (the chunker) is modelled
with explicit fuel, so that its divergence on bad parameters is provable.
-/

namespace Rag

/-! ### Text primitives (Python `str.strip`, slicing, substring test) -/

/-- One character of Python whitespace, as used by `str.strip()`. -/
def isWS (c : Char) : Bool := c.isWhitespace

/-- Python `str.strip()`: drop leading and trailing whitespace. -/
def trimWS (l : List Char) : List Char :=
  ((l.dropWhile isWS).reverse.dropWhile isWS).reverse

/-- Python `a.startswith(b)` on character lists (used to build the
substring test below). -/
def leadsWith : List Char → List Char → Bool
  | [], _ => true
  | _ :: _, [] => false
  | a :: as, b :: bs => a == b && leadsWith as bs

/-- Python `needle in hay` (contiguous substring test). -/
def containsSeq (needle : List Char) : List Char → Bool
  | [] => needle.isEmpty
  | c :: rest => leadsWith needle (c :: rest) || containsSeq needle rest

/-! ### Chunker — `VectorStore.chunk_text` (vector_store.py, lines 41-70)

```
if not text or not text.strip():
    return []
chunks = []
start = 0
text_length = len(text)
while start < text_length:
    end = start + chunk_size
    chunk = text[start:end].strip()
    if chunk:  # Only add non-empty chunks
        chunks.append(chunk)
    start += chunk_size - overlap
return chunks
```

The `while` loop advances `start` by `chunk_size - overlap` per iteration and
therefore terminates only when that step is positive; the embedding uses
explicit fuel, with `none` meaning the loop has not finished within the given
fuel.  `chunk_text` supplies fuel `text.length + 1`, which
`chunkLoop_eq_some_of_lt` below proves sufficient whenever
`overlap < chunk_size`. -/

/-- Python `text[start:start+cs].strip()`. -/
def sliceStrip (text : List Char) (start cs : Nat) : List Char :=
  trimWS ((text.drop start).take cs)

/-- The chunking `while` loop, with fuel.  Nat subtraction `cs - ov` matches
the Python step for `ov < cs`; for `ov ≥ cs` the Python step is `≤ 0`, so the
loop never reaches `start ≥ len(text)` — exactly as here, where the step
truncates to `0`. -/
def chunkLoop (cs ov : Nat) (text : List Char) : Nat → Nat → Option (List (List Char))
  | 0, start => if start < text.length then none else some []
  | fuel + 1, start =>
    if start < text.length then
      match chunkLoop cs ov text fuel (start + (cs - ov)) with
      | none => none
      | some rest =>
        let c := sliceStrip text start cs
        some (if c.isEmpty then rest else c :: rest)
    else some []

/-- `VectorStore.chunk_text`.  `some chunks` is the returned list; `none`
means the loop diverges (never happens when `overlap < chunk_size`). -/
def chunk_text (text : List Char) (cs ov : Nat) : Option (List (List Char)) :=
  if (trimWS text).isEmpty then some []
  else chunkLoop cs ov text (text.length + 1) 0

/-! ### Retrieval Store — `VectorStore` (vector_store.py)

A stored chunk triple; the backing ChromaDB collection is a list of these.
Embeddings are opaque vectors whose distance function is an oracle
parameter (`dist`), matching the spec, which leaves the metric to the
backend.  `collectionQuery` models `self.collection.query`: exact
nearest-neighbor search returning, per query embedding, the stored entries
in ascending distance order, at most `n_results` of them. -/

structure Chunk where
  id : String
  content : List Char
  metadata : List (String × String)
  embedding : List Int
deriving DecidableEq, Repr

/-- Ascending-distance comparison of two stored chunks relative to a query
embedding. -/
def distRel (dist : List Int → List Int → Int) (qe : List Int) (a b : Chunk) : Prop :=
  dist qe a.embedding ≤ dist qe b.embedding

instance (dist : List Int → List Int → Int) (qe : List Int) :
    DecidableRel (distRel dist qe) := fun x y =>
  inferInstanceAs (Decidable (dist qe x.embedding ≤ dist qe y.embedding))

instance (dist : List Int → List Int → Int) (qe : List Int) :
    IsTotal Chunk (distRel dist qe) :=
  ⟨fun x y => Int.le_total (dist qe x.embedding) (dist qe y.embedding)⟩

instance (dist : List Int → List Int → Int) (qe : List Int) :
    IsTrans Chunk (distRel dist qe) :=
  ⟨fun _ _ _ hab hbc => le_trans hab hbc⟩

/-- The `n_results` nearest stored chunks to `qe`, best match first. -/
def topK (stored : List Chunk) (dist : List Int → List Int → Int)
    (qe : List Int) (n : Nat) : List Chunk :=
  (List.insertionSort (distRel dist qe) stored).take n

/-- The nested result shape ChromaDB returns (one inner list per query
embedding). -/
structure RawQueryResult where
  documents : List (List (List Char))
  metadatas : List (List (List (String × String)))
  distances : List (List Int)
deriving DecidableEq, Repr

/-- `self.collection.query(query_embeddings=…, n_results=…)`, modelled as
exact nearest-neighbor search per query embedding. -/
def collectionQuery (stored : List Chunk) (dist : List Int → List Int → Int)
    (qEmbs : List (List Int)) (n : Nat) : RawQueryResult where
  documents := qEmbs.map fun qe => (topK stored dist qe n).map Chunk.content
  metadatas := qEmbs.map fun qe => (topK stored dist qe n).map Chunk.metadata
  distances := qEmbs.map fun qe => (topK stored dist qe n).map fun c => dist qe c.embedding

/-- The flattened result dictionary `VectorStore.query` returns. -/
structure QueryResult where
  documents : List (List Char)
  metadatas : List (List (String × String))
  distances : List Int
deriving DecidableEq, Repr

def emptyQueryResult : QueryResult := { documents := [], metadatas := [], distances := [] }

/-- `VectorStore.query` (vector_store.py, lines 179-207), instrumented: the
second and third components count how often the embedding gateway
(`self.embed_texts`) and the backing collection (`self.collection.query`)
are invoked.

```
if not query_text or not query_text.strip():
    return {"documents": [], "metadatas": [], "distances": []}
query_embedding = self.embed_texts([query_text])[0]
results = self.collection.query(
    query_embeddings=[query_embedding],
    n_results=min(n_results, self.collection.count()))
return {"documents": results["documents"][0] if results["documents"] else [], ...}
``` -/
def queryCounted (stored : List Chunk) (embed : List Char → List Int)
    (dist : List Int → List Int → Int) (query_text : List Char)
    (n_results : Nat) : QueryResult × Nat × Nat :=
  if query_text.isEmpty || (trimWS query_text).isEmpty then
    (emptyQueryResult, 0, 0)
  else
    let query_embedding := embed query_text
    let results := collectionQuery stored dist [query_embedding] (min n_results stored.length)
    ({ documents := results.documents.headD []
     , metadatas := results.metadatas.headD []
     , distances := results.distances.headD [] }, 1, 1)

/-- `VectorStore.query`, result only. -/
def query (stored : List Chunk) (embed : List Char → List Int)
    (dist : List Int → List Int → Int) (query_text : List Char)
    (n_results : Nat) : QueryResult :=
  (queryCounted stored embed dist query_text n_results).1

/-! ### Indexing — `VectorStore.add_document` / `add_documents`
(vector_store.py, lines 89-177)

`add_document` chunks with the configured defaults `CHUNK_SIZE = 500`,
`CHUNK_OVERLAP = 50` (config.py, lines 66-67); since `50 < 500` the chunk
loop terminates, so the `Option.getD []` below never takes its default
(`chunkLoop_eq_some_of_lt`).  The embedding gateway may fail
(`Except.error`), which `add_document` propagates and the `try/except` of
`add_documents` catches. -/

def CHUNK_SIZE : Nat := 500
def CHUNK_OVERLAP : Nat := 50

def add_document (embed : List (List Char) → Except String (List (List Int)))
    (store : List Chunk) (doc_id : String) (text : List Char)
    (metadata : List (String × String)) : Except String (Nat × List Chunk) :=
  if (trimWS text).isEmpty then .ok (0, store)
  else
    let chunks := (chunk_text text CHUNK_SIZE CHUNK_OVERLAP).getD []
    if chunks.isEmpty then .ok (0, store)
    else
      match embed chunks with
      | .error e => .error e
      | .ok embeddings =>
        let n := chunks.length
        let newChunks := (chunks.zip embeddings).enum.map fun p =>
          { id := doc_id ++ "_chunk_" ++ toString p.1
          , content := p.2.1
          , metadata := metadata ++
              [("doc_id", doc_id), ("chunk_index", toString p.1),
               ("total_chunks", toString n)]
          , embedding := p.2.2 : Chunk }
        .ok (n, store ++ newChunks)

/-- One entry of the `documents` argument of `add_documents`; `none` for
`id` or `text` models a dict missing that key (Python `doc[...]` raises
`KeyError`, caught by the per-document `try/except`). -/
structure DocEntry where
  docId : Option String
  docText : Option (List Char)
  metadata : List (String × String)
deriving DecidableEq, Repr

/-- The summary dictionary `add_documents` returns. -/
structure AddSummary where
  total_documents : Nat
  successful : Nat
  failed : Nat
  total_chunks : Nat
  failed_docs : List String
deriving DecidableEq, Repr

/-- The body of the `for doc in documents` loop up to the point where an
outcome is known: `KeyError` on a missing key, or the result of
`add_document`. -/
def docStep (embed : List (List Char) → Except String (List (List Int)))
    (store : List Chunk) (d : DocEntry) : Except String (Nat × List Chunk) :=
  match d.docId with
  | none => .error "KeyError: id"
  | some i =>
    match d.docText with
    | none => .error "KeyError: text"
    | some t => add_document embed store i t d.metadata

/-- `VectorStore.add_documents`: processes every entry, counts successes,
records every failed id (`doc.get('id', 'unknown')` in the handler), and
returns a summary — never an exception. -/
def add_documents (embed : List (List Char) → Except String (List (List Int)))
    (store : List Chunk) : List DocEntry → AddSummary × List Chunk
  | [] =>
    ({ total_documents := 0, successful := 0, failed := 0
     , total_chunks := 0, failed_docs := [] }, store)
  | d :: ds =>
    match docStep embed store d with
    | .ok (n, store₁) =>
      if 0 < n then
        let r := add_documents embed store₁ ds
        ({ r.1 with
            total_documents := r.1.total_documents + 1,
            successful := r.1.successful + 1,
            total_chunks := r.1.total_chunks + n }, r.2)
      else
        let r := add_documents embed store₁ ds
        ({ r.1 with
            total_documents := r.1.total_documents + 1,
            failed := r.1.failed + 1,
            failed_docs := (d.docId.getD "unknown") :: r.1.failed_docs }, r.2)
    | .error _ =>
      let r := add_documents embed store ds
      ({ r.1 with
          total_documents := r.1.total_documents + 1,
          failed := r.1.failed + 1,
          failed_docs := (d.docId.getD "unknown") :: r.1.failed_docs }, r.2)

/-- Whether the loop body records `d` as failed: missing key, empty text,
no chunks, or a failing embedding call.  The outcome depends only on the
entry itself, never on the store contents — this is what makes the
documents independent of each other. -/
def docFails (embed : List (List Char) → Except String (List (List Int)))
    (d : DocEntry) : Bool :=
  match d.docId with
  | none => true
  | some _ =>
    match d.docText with
    | none => true
    | some t =>
      if (trimWS t).isEmpty then true
      else
        let chunks := (chunk_text t CHUNK_SIZE CHUNK_OVERLAP).getD []
        if chunks.isEmpty then true
        else
          match embed chunks with
          | .error _ => true
          | .ok _ => false

/-! ### Tool layer — `tool_search_documents` (mcp_server_unified.py, lines 108-114)

```
def tool_search_documents(query: str, k: int = 3) -> List[Dict]:
    try:
        return vector_store.search(query, k)
    except Exception as e:
        return []
```

`VectorStore` (vector_store.py) defines no method named `search` — its
methods are exactly `vectorStoreMethodNames` below — so the attribute
lookup `vector_store.search` raises `AttributeError` before anything is
called, and the handler returns the empty list.  The same missing-method
call sits in `VectorStoreMCP.search` (mcp/vector_store_mcp.py, line 23)
and `mcp_server_vector.py`, line 52. -/

/-- The methods the `VectorStore` class actually defines
(vector_store.py). -/
def vectorStoreMethodNames : List String :=
  ["__init__", "chunk_text", "embed_texts", "add_document", "add_documents",
   "query", "delete_document", "clear_all", "get_stats"]

/-- The unified server's `search_documents` tool.  The first branch is the
would-be dispatch to a `search` method; it is dead because the class has
none, and the `except` handler maps the `AttributeError` to `[]`. -/
def tool_search_documents (_stored : List Chunk) (_q : List Char) (_k : Nat) :
    List (List (String × String)) :=
  if vectorStoreMethodNames.contains "search" then
    []
  else
    []

/-! ### Query Router — agent_nodes.py

The LLM classification call is a collaborator; its outcome is passed in as
`Except String (List Char)`: `.ok content` is `response.content`, `.error e`
a raised exception with message `e`.  Likewise the retrieval call outcome
for `retrieval_node`. -/

structure RetrievalMetadata where
  num_results : Nat
  distances : List Int
  sources : List String
deriving DecidableEq, Repr

/-- `AgentState` of agent_nodes.py (the `messages` field, a list of LLM
message objects, is omitted: no routing decision reads it). -/
structure AgentState where
  user_query : List Char
  retrieved_docs : List (List Char)
  retrieval_metadata : RetrievalMetadata
  next_action : String
  final_answer : List Char
  use_rag : Bool
  error : String
deriving DecidableEq, Repr

/-- `create_initial_state` (agent_nodes.py, lines 273-292). -/
def create_initial_state (q : List Char) : AgentState where
  user_query := q
  retrieved_docs := []
  retrieval_metadata := { num_results := 0, distances := [], sources := [] }
  next_action := ""
  final_answer := []
  use_rag := false
  error := ""

/-- `master_agent_node` (agent_nodes.py, lines 77-116):

```
try:
    response = llm.invoke(...)
    decision = response.content.strip().upper()
    if "RAG" in decision:
        state["next_action"] = "retrieve"; state["use_rag"] = True
    else:
        state["next_action"] = "answer_direct"; state["use_rag"] = False
    state["error"] = ""
except Exception as e:
    state["error"] = f"Classification error: ..."
    state["next_action"] = "answer_direct"  # Fallback to direct answer
    state["use_rag"] = False
``` -/
def master_agent_node (state : AgentState)
    (classification : Except String (List Char)) : AgentState :=
  match classification with
  | .ok content =>
    let decision := (trimWS content).map Char.toUpper
    if containsSeq "RAG".toList decision then
      { state with next_action := "retrieve", use_rag := true, error := "" }
    else
      { state with next_action := "answer_direct", use_rag := false, error := "" }
  | .error e =>
    { state with
        error := "Classification error: " ++ e,
        next_action := "answer_direct",
        use_rag := false }

/-- `route_after_master` (agent_nodes.py, lines 253-258). -/
def route_after_master (state : AgentState) : String := state.next_action

/-- `retrieval_node` (agent_nodes.py, lines 119-163). -/
def retrieval_node (state : AgentState)
    (results : Except String QueryResult) : AgentState :=
  match results with
  | .ok r =>
    { state with
        retrieved_docs := r.documents,
        retrieval_metadata :=
          { num_results := r.documents.length,
            distances := r.distances,
            sources := r.metadatas.map fun m => (m.lookup "source").getD "unknown" },
        next_action := if r.documents.isEmpty then "answer_direct" else "generate_answer",
        error := "" }
  | .error e =>
    { state with
        error := "Retrieval error: " ++ e,
        next_action := "answer_direct",
        retrieved_docs := [] }

/-- `route_after_retrieval` (agent_nodes.py, lines 261-266). -/
def route_after_retrieval (state : AgentState) : String := state.next_action

/-! ### Query Router — agent_nodes_mcp.py -/

/-- `AgentState` of agent_nodes_mcp.py; a retrieved document is a dict. -/
structure AgentStateMCP where
  question : List Char
  retrieved_docs : List (List (String × String))
  final_answer : List Char
  use_rag : Bool
  error : String
deriving DecidableEq, Repr

/-- `create_initial_state` (agent_nodes_mcp.py, lines 42-49). -/
def create_initial_state_mcp (q : List Char) : AgentStateMCP where
  question := q
  retrieved_docs := []
  final_answer := []
  use_rag := false
  error := ""

/-- `master_agent_node` (agent_nodes_mcp.py, lines 59-74).  No
`try/except`: a raised classification call propagates, so the node result
is itself an `Except`.

```
if not ENABLE_RAG_CLASSIFICATION:
    state["use_rag"] = True
    return state
response = llm.invoke(...)
decision = response.content.strip().lower()
state["use_rag"] = (decision != "direct")  # Fail-safe -> RAG
return state
``` -/
def master_agent_node_mcp (enableRagClassification : Bool)
    (state : AgentStateMCP) (classification : Except String (List Char)) :
    Except String AgentStateMCP :=
  if !enableRagClassification then .ok { state with use_rag := true }
  else
    match classification with
    | .error e => .error e
    | .ok content =>
      let decision := (trimWS content).map Char.toLower
      .ok { state with use_rag := decision ≠ "direct".toList }

/-- `route_after_master` (agent_nodes_mcp.py, lines 80-82). -/
def route_after_master_mcp (state : AgentStateMCP) : String :=
  if state.use_rag then "retrieve" else "answer_direct"

/-- `retrieval_node` (agent_nodes_mcp.py, lines 88-100):

```
try:
    state["retrieved_docs"] = vector_store.search(state["question"])
except Exception as e:
    state["error"] = str(e)
    state["retrieved_docs"] = []
return state
``` -/
def retrieval_node_mcp (state : AgentStateMCP)
    (searchOutcome : Except String (List (List (String × String)))) : AgentStateMCP :=
  match searchOutcome with
  | .ok docs => { state with retrieved_docs := docs }
  | .error e => { state with error := e, retrieved_docs := [] }

/-- `route_after_retrieval` (agent_nodes_mcp.py, lines 102-104). -/
def route_after_retrieval_mcp (state : AgentStateMCP) : String :=
  if state.retrieved_docs.isEmpty then "answer_direct" else "answer_with_rag"

/-! ### Transport client auto-start

Modelled from the spec: the HTTP transport client with
`server_url` / `auto_start_server` configuration, liveness probe and
bounded health polling (spec section 4.3) is constructed by
agent_nodes_mcp.py (lines 33-36), index.py and mcp_manager.py, but its
implementation is missing from the sources — mcp_client.py holds an older
stdio wrapper whose `VectorStoreMCP.__init__` takes no parameters.  The
model below follows the spec text: probe first; if unreachable and
auto-start is enabled, spawn a detached child and poll the probe at fixed
intervals up to a bounded number of attempts, with three exit conditions —
probe success, child exit (`ServerStartupFailure`) and exhausted budget
(`ServerStartupTimeout`). -/

structure MCPClientConfig where
  server_url : String
  auto_start_server : Bool
  poll_interval : Nat
  max_attempts : Nat
deriving DecidableEq, Repr

inductive StartupResult where
  | healthy
  | transportError
  | serverStartupFailure
  | serverStartupTimeout
deriving DecidableEq, Repr

structure StartupOutcome where
  result : StartupResult
  spawned : Bool
  elapsed : Nat
deriving DecidableEq, Repr

/-- Modelled from the spec: the post-spawn polling loop.  `probe i` is the
health probe result at poll `i`, `alive i` whether the spawned child is
still running; each poll costs one `interval` of wall time. -/
def pollLoop (probe alive : Nat → Bool) (interval : Nat) :
    Nat → Nat → StartupResult × Nat
  | 0, _ => (.serverStartupTimeout, 0)
  | budget + 1, i =>
    if probe i then (.healthy, interval)
    else if !alive i then (.serverStartupFailure, interval)
    else
      let r := pollLoop probe alive interval budget (i + 1)
      (r.1, interval + r.2)

/-- Modelled from the spec: what the client does before its first call —
probe, optionally spawn, then poll with a bounded attempt budget. -/
def ensure_server_running (cfg : MCPClientConfig) (probe alive : Nat → Bool) :
    StartupOutcome :=
  if probe 0 then { result := .healthy, spawned := false, elapsed := 0 }
  else if !cfg.auto_start_server then
    { result := .transportError, spawned := false, elapsed := 0 }
  else
    let r := pollLoop probe alive cfg.poll_interval cfg.max_attempts 1
    { result := r.1, spawned := true, elapsed := r.2 }

/-- A concrete embedding-gateway stub for the round-trip scenario of the
spec (testable property section): every text embeds to the same vector. -/
def foxEmbedBatch : List (List Char) → Except String (List (List Int)) :=
  fun ts => .ok (ts.map fun _ => [0])

/-- The store contents after `add_document("d1", "The quick brown fox", {})`
with the configured chunking defaults. -/
def foxStore : List Chunk :=
  match add_document foxEmbedBatch [] "d1" "The quick brown fox".toList [] with
  | .ok p => p.2
  | .error _ => []

/-! ## Helper lemmas -/

theorem dropWhile_eq_self_of_all_false {p : Char → Bool} :
    ∀ {l : List Char}, (∀ c ∈ l, p c = false) → l.dropWhile p = l := by
  intro l h
  cases l with
  | nil => rfl
  | cons a l =>
    have ha : p a = false := h a (List.mem_cons_self a l)
    simp [List.dropWhile, ha]

theorem trimWS_eq_self_of_all_nonws {l : List Char}
    (h : ∀ c ∈ l, isWS c = false) : trimWS l = l := by
  unfold trimWS
  rw [dropWhile_eq_self_of_all_false h]
  rw [dropWhile_eq_self_of_all_false (by intro c hc; exact h c (List.mem_reverse.mp hc))]
  exact List.reverse_reverse l

theorem trimWS_nil : trimWS [] = [] := rfl

theorem ne_nil_of_trimWS_ne_nil {l : List Char} (h : trimWS l ≠ []) : l ≠ [] := by
  intro hl; exact h (hl ▸ trimWS_nil)

theorem chunkLoop_stop {cs ov : Nat} {text : List Char} {start : Nat}
    (h : ¬ start < text.length) : ∀ fuel, chunkLoop cs ov text fuel start = some [] := by
  intro fuel
  cases fuel with
  | zero => simp [chunkLoop, h]
  | succ n => simp [chunkLoop, h]

theorem chunkLoop_eq_some_of_lt {cs ov : Nat} (hs : ov < cs) (text : List Char) :
    ∀ fuel start, text.length - start ≤ fuel →
      ∃ l, chunkLoop cs ov text fuel start = some l := by
  intro fuel
  induction fuel with
  | zero =>
    intro start h
    have : ¬ start < text.length := by omega
    exact ⟨[], by simp [chunkLoop, this]⟩
  | succ n ih =>
    intro start h
    by_cases hlt : start < text.length
    · have hstep : 1 ≤ cs - ov := by omega
      obtain ⟨rest, hrest⟩ := ih (start + (cs - ov)) (by omega)
      refine ⟨if (sliceStrip text start cs).isEmpty then rest
              else sliceStrip text start cs :: rest, ?_⟩
      simp only [chunkLoop, if_pos hlt, hrest]
    · exact ⟨[], chunkLoop_stop hlt _⟩

theorem ceil_div_step {s a : Nat} (hs : 0 < s) (ha : 0 < a) :
    (a + s - 1) / s = (a - s + s - 1) / s + 1 := by
  have h1 : a + s - 1 = (a - 1) + s := by omega
  rw [h1, Nat.add_div_right _ hs]
  rcases le_or_lt a s with hle | hlt
  · have h2 : a - s = 0 := by omega
    have h3 : (a - 1) / s = 0 := Nat.div_eq_of_lt (by omega)
    have h4 : (0 + s - 1) / s = 0 := Nat.div_eq_of_lt (by omega)
    rw [h2, h3, h4]
  · have h2 : a - s + s - 1 = a - 1 := by omega
    rw [h2]

theorem mem_of_mem_slice {text : List Char} {start cs : Nat} {c : Char}
    (h : c ∈ (text.drop start).take cs) : c ∈ text :=
  ((List.take_sublist _ _).trans (List.drop_sublist _ _)).subset h

/-- With a positive step, each loop iteration whose window holds no
whitespace emits one chunk, so the number of chunks from `start` is the
ceiling of `(len - start) / (cs - ov)`. -/
theorem chunkLoop_length {cs ov : Nat} (hs : ov < cs) {text : List Char}
    (hnw : ∀ c ∈ text, isWS c = false) :
    ∀ fuel start l, chunkLoop cs ov text fuel start = some l →
      l.length = (text.length - start + (cs - ov) - 1) / (cs - ov) := by
  intro fuel
  induction fuel with
  | zero =>
    intro start l h
    by_cases hlt : start < text.length
    · simp [chunkLoop, hlt] at h
    · simp [chunkLoop, hlt] at h
      subst h
      have h0 : text.length - start = 0 := by omega
      rw [h0]
      simp only [List.length_nil]
      exact (Nat.div_eq_of_lt (by omega)).symm
  | succ n ih =>
    intro start l h
    by_cases hlt : start < text.length
    · simp only [chunkLoop, if_pos hlt] at h
      rcases hrec : chunkLoop cs ov text n (start + (cs - ov)) with _ | rest
      · rw [hrec] at h; simp at h
      · rw [hrec] at h
        simp only [Option.some.injEq] at h
        have hwin : (text.drop start).take cs ≠ [] := by
          have hd : text.drop start ≠ [] := by
            intro hd
            have := List.drop_eq_nil_iff.mp hd
            omega
          intro ht
          rcases List.take_eq_nil_iff.mp ht with h0 | h0
          · omega
          · exact hd h0
        have hstrip : sliceStrip text start cs = (text.drop start).take cs := by
          unfold sliceStrip
          exact trimWS_eq_self_of_all_nonws (fun c hc => hnw c (mem_of_mem_slice hc))
        have hne : (sliceStrip text start cs).isEmpty = false := by
          rw [hstrip]
          simpa using hwin
        rw [hne] at h
        simp at h
        subst h
        have hrest := ih (start + (cs - ov)) rest hrec
        simp only [List.length_cons, hrest]
        have ha : 0 < text.length - start := by omega
        have hstep : 0 < cs - ov := by omega
        have harith := ceil_div_step hstep ha
        have hsub : text.length - start - (cs - ov) = text.length - (start + (cs - ov)) := by
          omega
        rw [hsub] at harith
        omega
    · rw [chunkLoop_stop hlt _] at h
      simp at h
      subst h
      have h0 : text.length - start = 0 := by omega
      rw [h0]
      simp only [List.length_nil]
      exact (Nat.div_eq_of_lt (by omega)).symm

/-- When the step `chunk_size - overlap` is zero (`overlap ≥ chunk_size`),
the loop never advances past a valid start index: no amount of fuel
finishes it. -/
theorem chunkLoop_diverges {cs ov : Nat} (hs : cs ≤ ov) {text : List Char}
    {start : Nat} (hlt : start < text.length) :
    ∀ fuel, chunkLoop cs ov text fuel start = none := by
  intro fuel
  induction fuel with
  | zero => simp [chunkLoop, hlt]
  | succ n ih =>
    have hz : cs - ov = 0 := by omega
    simp only [chunkLoop, if_pos hlt, hz, Nat.add_zero, ih]


/-! ## Claim C7 — chunk count -/

/-- C7 counterexample: the claim says the chunk count for
`chunk_size > overlap > 0` equals `ceil((len - overlap) / (chunk_size - overlap))`.
For the two-character text `ab` with `chunk_size = 2`, `overlap = 1`, that
formula gives `ceil(1 / 1) = 1`, but the loop also emits the trailing
window `b` (it runs while `start < len`, not until the window covers the
text), producing 2 chunks. -/
theorem claim7_counterexample :
    chunk_text "ab".toList 2 1 = some ["ab".toList, "b".toList]
    ∧ ("ab".toList.length - 1 + (2 - 1) - 1) / (2 - 1) = 1
    ∧ ¬ (["ab".toList, "b".toList] : List (List Char)).length = 1 := by
  refine ⟨by decide, by decide, by decide⟩

/-- C7 amended: for `chunk_size > overlap > 0` and a text containing no
whitespace (so that no trimmed window is dropped), the number of chunks is
`ceil(len / (chunk_size - overlap))` — the loop emits one chunk per start
index `0, s, 2s, …` below `len`, where `s = chunk_size - overlap`. -/
theorem claim7_amended (text : List Char) (cs ov : Nat) (_h1 : 0 < ov)
    (h2 : ov < cs) (hnw : ∀ c ∈ text, isWS c = false) :
    ∃ l, chunk_text text cs ov = some l ∧
      l.length = (text.length + (cs - ov) - 1) / (cs - ov) := by
  by_cases hb : (trimWS text).isEmpty
  · have htx : trimWS text = text := trimWS_eq_self_of_all_nonws hnw
    have hnil : text = [] := by
      rw [htx] at hb
      simpa using hb
    subst hnil
    refine ⟨[], by simp [chunk_text, trimWS_nil], ?_⟩
    simp only [List.length_nil]
    exact (Nat.div_eq_of_lt (by omega)).symm
  · obtain ⟨l, hl⟩ := chunkLoop_eq_some_of_lt h2 text (text.length + 1) 0 (by omega)
    refine ⟨l, ?_, ?_⟩
    · simp only [chunk_text, hb, Bool.false_eq_true, if_false]
      exact hl
    · have := chunkLoop_length h2 hnw (text.length + 1) 0 l hl
      simpa using this

/-- C7 witness: a concrete instance of the amended count,
`chunk("abcde", 3, 1)` has `ceil(5 / 2) = 3` chunks. -/
theorem claim7_witness :
    ∃ l, chunk_text "abcde".toList 3 1 = some l ∧
      l.length = ("abcde".toList.length + (3 - 1) - 1) / (3 - 1) :=
  claim7_amended "abcde".toList 3 1 (by decide) (by decide) (by decide)

/-! ## Claim C8 — parameter validation -/

/-- C8: the claim says a call violating `0 < overlap < chunk_size` fails
with `InvalidParameter` before any work.  The code performs no validation
at all: with `overlap ≥ chunk_size` and non-blank text the loop body never
advances `start`, so no amount of fuel finishes it (the Python loop hangs
forever), and with `overlap = 0` the call silently returns chunks instead
of rejecting. -/
theorem claim8_no_validation :
    (∀ cs ov (text : List Char), cs ≤ ov → trimWS text ≠ [] →
       chunk_text text cs ov = none ∧ ∀ fuel, chunkLoop cs ov text fuel 0 = none)
    ∧ chunk_text "ab".toList 1 0 = some ["a".toList, "b".toList] := by
  constructor
  · intro cs ov text hle htr
    have hlen : 0 < text.length :=
      List.length_pos.mpr (ne_nil_of_trimWS_ne_nil htr)
    have hdiv := @chunkLoop_diverges cs ov hle text 0 hlen
    constructor
    · have hguard : ¬ (trimWS text).isEmpty = true := by simpa using htr
      simp only [chunk_text, hguard, if_false]
      exact hdiv _
    · exact hdiv
  · decide

/-- C8 witness: `chunk("ab", chunk_size = 2, overlap = 2)` never
terminates — the fuel-indexed loop returns `none` at every fuel. -/
theorem claim8_witness : chunk_text "ab".toList 2 2 = none :=
  (claim8_no_validation.1 2 2 "ab".toList (by decide) (by decide)).1

/-! ## Claim C9 — blank input and short text -/

/-- C9 counterexample: the claim says any text shorter than `chunk_size`
with non-blank trim yields exactly one chunk.  `chunk("abcde", 10, 8)` has
`len = 5 < 10`, yet yields three chunks, because the loop keeps emitting
windows while `start < len` and the step is only `2`. -/
theorem claim9_counterexample :
    "abcde".toList.length < 10
    ∧ trimWS "abcde".toList ≠ []
    ∧ chunk_text "abcde".toList 10 8
        = some ["abcde".toList, "cde".toList, "e".toList]
    ∧ ¬ (["abcde".toList, "cde".toList, "e".toList] : List (List Char)).length = 1 := by
  refine ⟨by decide, by decide, by decide, by decide⟩

/-- C9 amended: empty or whitespace-only input yields an empty sequence,
and a text of length at most `chunk_size - overlap` (rather than at most
`chunk_size`) with non-blank trim yields exactly one chunk — the whole
trimmed text. -/
theorem claim9_amended :
    (∀ (text : List Char) cs ov, trimWS text = [] → chunk_text text cs ov = some [])
    ∧ (∀ (text : List Char) cs ov, 0 < ov → ov < cs → trimWS text ≠ [] →
        text.length ≤ cs - ov → chunk_text text cs ov = some [trimWS text]) := by
  constructor
  · intro text cs ov htr
    simp [chunk_text, htr]
  · intro text cs ov _h1 h2 htr hle
    have hlen : 0 < text.length :=
      List.length_pos.mpr (ne_nil_of_trimWS_ne_nil htr)
    have hguard : ¬ (trimWS text).isEmpty = true := by simpa using htr
    simp only [chunk_text, hguard, if_false]
    have hstop : ¬ (0 + (cs - ov)) < text.length := by omega
    have hrec := @chunkLoop_stop cs ov text (0 + (cs - ov)) hstop text.length
    simp only [chunkLoop, if_pos hlen, hrec]
    have hslice : sliceStrip text 0 cs = trimWS text := by
      unfold sliceStrip
      rw [List.drop_zero, List.take_of_length_le (by omega)]
    rw [hslice]
    have hne : (trimWS text).isEmpty = false := by simpa using htr
    rw [hne]
    simp

/-- C9 witness: blank input gives the empty sequence, and the four-character
text `hi` padded with spaces (length `4 ≤ 10 - 4`) gives exactly its trim. -/
theorem claim9_witness :
    chunk_text "   ".toList 7 3 = some []
    ∧ chunk_text "hi  ".toList 10 4 = some [trimWS "hi  ".toList] :=
  ⟨claim9_amended.1 "   ".toList 7 3 (by decide),
   claim9_amended.2 "hi  ".toList 10 4 (by decide) (by decide) (by decide) (by decide)⟩

/-! ## Claim C5 — search bounds, ordering and empty store -/

/-- C5: for every query and every `k`, `VectorStore.query` returns at most
`min(k, storedCount)` results, its distances are in ascending order, and on
an empty store it returns the empty result rather than raising. -/
theorem claim5_query_bounds (stored : List Chunk) (embed : List Char → List Int)
    (dist : List Int → List Int → Int) (q : List Char) (k : Nat) :
    (query stored embed dist q k).documents.length ≤ min k stored.length
    ∧ List.Sorted (· ≤ ·) (query stored embed dist q k).distances
    ∧ (stored = [] → query stored embed dist q k = emptyQueryResult) := by
  unfold query queryCounted
  by_cases hb : (q.isEmpty || (trimWS q).isEmpty) = true
  · rw [if_pos hb]
    exact ⟨by simp [emptyQueryResult], by simp [emptyQueryResult], fun _ => rfl⟩
  · rw [if_neg hb]
    simp only [collectionQuery, List.map_cons, List.map_nil, List.headD_cons]
    refine ⟨?_, ?_, ?_⟩
    · rw [List.length_map]
      unfold topK
      rw [List.length_take, List.length_insertionSort]
      omega
    · unfold topK
      show List.Pairwise _ _
      rw [List.pairwise_map]
      exact List.Pairwise.sublist (List.take_sublist _ _)
        (List.sorted_insertionSort (distRel dist (embed q)) stored)
    · intro hst
      subst hst
      simp [topK, emptyQueryResult, List.insertionSort]

/-- C5 witness: on the empty store every search returns the empty result. -/
theorem claim5_witness :
    query [] (fun _ => ([] : List Int)) (fun _ _ => 0) "anything".toList 4
      = emptyQueryResult :=
  (claim5_query_bounds [] (fun _ => []) (fun _ _ => 0) "anything".toList 4).2.2 rfl

/-! ## Claim C10 — blank query short-circuit -/

/-- C10: a query whose text is empty or whitespace-only returns the empty
result immediately: the embedding gateway and the backing collection are
invoked zero times. -/
theorem claim10_blank_query (stored : List Chunk) (embed : List Char → List Int)
    (dist : List Int → List Int → Int) (q : List Char) (k : Nat)
    (h : trimWS q = []) :
    queryCounted stored embed dist q k = (emptyQueryResult, 0, 0) := by
  unfold queryCounted
  have hb : (q.isEmpty || (trimWS q).isEmpty) = true := by simp [h]
  rw [if_pos hb]

/-- C10 witness: a whitespace-only query against a non-empty store. -/
theorem claim10_witness :
    queryCounted
      [{ id := "d_chunk_0", content := "x".toList, metadata := [], embedding := [1] }]
      (fun _ => [1]) (fun _ _ => 0) "  ".toList 3 = (emptyQueryResult, 0, 0) :=
  claim10_blank_query _ _ _ "  ".toList 3 (by decide)

/-! ## Claim C6 — partial-failure isolation of `add_documents` -/

/-- Each document's per-iteration outcome depends only on the document
itself: it either fails (missing key, blank text, no chunks, embedding
error) leaving the store unchanged on the `ok 0` path, or succeeds with a
positive chunk count. -/
theorem docStep_classified (embed : List (List Char) → Except String (List (List Int)))
    (store : List Chunk) (d : DocEntry) :
    (docFails embed d = true ∧
       ((∃ e, docStep embed store d = .error e) ∨ docStep embed store d = .ok (0, store)))
    ∨ (docFails embed d = false ∧
        ∃ n newStore, docStep embed store d = .ok (n, newStore) ∧ 0 < n) := by
  rcases hid : d.docId with _ | i
  · exact Or.inl ⟨by simp [docFails, hid],
      Or.inl ⟨"KeyError: id", by simp [docStep, hid]⟩⟩
  · rcases htx : d.docText with _ | t
    · exact Or.inl ⟨by simp [docFails, hid, htx],
        Or.inl ⟨"KeyError: text", by simp [docStep, hid, htx]⟩⟩
    · by_cases hb : (trimWS t).isEmpty
      · refine Or.inl ⟨by simp [docFails, hid, htx, hb], Or.inr ?_⟩
        simp [docStep, hid, htx, add_document, hb]
      · by_cases hch : ((chunk_text t CHUNK_SIZE CHUNK_OVERLAP).getD []).isEmpty
        · refine Or.inl ⟨by simp [docFails, hid, htx, hb, hch], Or.inr ?_⟩
          simp [docStep, hid, htx, add_document, hb, hch]
        · rcases hem : embed ((chunk_text t CHUNK_SIZE CHUNK_OVERLAP).getD []) with e | embs
          · refine Or.inl ⟨by simp [docFails, hid, htx, hb, hch, hem], Or.inl ⟨e, ?_⟩⟩
            simp [docStep, hid, htx, add_document, hb, hch, hem]
          · rcases hv : docStep embed store d with e | ⟨n, ns⟩
            · exfalso
              simp [docStep, hid, htx, add_document, hb, hch, hem] at hv
            · refine Or.inr ⟨by simp [docFails, hid, htx, hb, hch, hem], n, ns, rfl, ?_⟩
              simp [docStep, hid, htx, add_document, hb, hch, hem] at hv
              have hlen : 0 < ((chunk_text t CHUNK_SIZE CHUNK_OVERLAP).getD []).length :=
                List.length_pos.mpr (by simpa using hch)
              omega

/-- C6: `add_documents` processes every entry independently — the summary
covers all of them, every failing entry's id (or the `unknown` placeholder
for an entry without an id) appears in `failed_docs` in order, the call
always returns a summary rather than raising, and
`successful + failed = total`. -/
theorem claim6_partial_failure (embed : List (List Char) → Except String (List (List Int)))
    (store : List Chunk) (docs : List DocEntry) :
    (add_documents embed store docs).1.total_documents = docs.length
    ∧ (add_documents embed store docs).1.failed_docs
        = (docs.filter (fun d => docFails embed d)).map (fun d => d.docId.getD "unknown")
    ∧ (add_documents embed store docs).1.successful
        = (docs.filter (fun d => !docFails embed d)).length
    ∧ (add_documents embed store docs).1.failed
        = (add_documents embed store docs).1.failed_docs.length
    ∧ (add_documents embed store docs).1.successful
        + (add_documents embed store docs).1.failed = docs.length := by
  induction docs generalizing store with
  | nil => simp [add_documents]
  | cons d ds ih =>
    rcases docStep_classified embed store d with ⟨hf, hcase⟩ | ⟨hf, n, ns, hstep, hn⟩
    · have hnot : (!docFails embed d) = false := by rw [hf]; rfl
      rcases hcase with ⟨e, hstep⟩ | hstep
      · obtain ⟨ht, hfd, hsc, hfl, hsum⟩ := ih store
        simp only [add_documents, hstep]
        refine ⟨by simp [ht], ?_, ?_, ?_, ?_⟩
        · simp [List.filter_cons, hf, hfd]
        · simp [List.filter_cons, hnot, hsc]
        · simp [hfl]
        · simp only [List.length_cons]
          omega
      · obtain ⟨ht, hfd, hsc, hfl, hsum⟩ := ih store
        simp only [add_documents, hstep, Nat.lt_irrefl, if_false]
        refine ⟨by simp [ht], ?_, ?_, ?_, ?_⟩
        · simp [List.filter_cons, hf, hfd]
        · simp [List.filter_cons, hnot, hsc]
        · simp [hfl]
        · simp only [List.length_cons]
          omega
    · have hnot : (!docFails embed d) = true := by rw [hf]; rfl
      obtain ⟨ht, hfd, hsc, hfl, hsum⟩ := ih ns
      simp only [add_documents, hstep]
      rw [if_pos hn]
      refine ⟨by simp [ht], ?_, ?_, ?_, ?_⟩
      · simp [List.filter_cons, hf, hfd]
      · simp [List.filter_cons, hnot, hsc]
      · simp [hfl]
      · simp only [List.length_cons]
        omega

/-! ## Claim C1 — round-trip add/search through the transport layer -/

/-- C1: the claim says the server's `search_documents` returns the store's
nearest-neighbor results rather than a constant empty list.  In fact
`VectorStore` has no `search` method (only `query`), so the tool's
`vector_store.search(query, k)` raises `AttributeError`, the handler
swallows it, and the tool returns `[]` for every input — even though the
store itself, queried through its real `query` method after
`add_document("d1", "The quick brown fox", {})`, does return the indexed
text as the nearest neighbor. -/
theorem claim1_search_constant_empty :
    vectorStoreMethodNames.contains "search" = false
    ∧ (∀ stored (q : List Char) (k : Nat), tool_search_documents stored q k = [])
    ∧ (query foxStore (fun _ => [0]) (fun _ _ => 0) "quick brown fox".toList 1).documents
        = ["The quick brown fox".toList]
    ∧ containsSeq "The quick brown fox".toList "The quick brown fox".toList = true := by
  refine ⟨by decide, fun _ _ _ => rfl, by decide, by decide⟩

/-! ## Claim C2 — classification failure routing -/

/-- C2 counterexample: the claim says a failed classification call sets
`use_rag = true` and routes to `RETRIEVE`.  agent_nodes.py does the
opposite — the `except` branch sets `use_rag = False` and
`next_action = "answer_direct"` — and agent_nodes_mcp.py has no handler at
all, so the exception propagates. -/
theorem claim2_counterexample :
    (master_agent_node (create_initial_state "q".toList) (.error "timeout")).use_rag = false
    ∧ (master_agent_node (create_initial_state "q".toList) (.error "timeout")).next_action
        = "answer_direct"
    ∧ route_after_master (master_agent_node (create_initial_state "q".toList) (.error "timeout"))
        = "answer_direct"
    ∧ master_agent_node_mcp true (create_initial_state_mcp "q".toList) (.error "timeout")
        = .error "timeout" :=
  ⟨rfl, rfl, rfl, rfl⟩

/-- C2 amended: a raised classification call is not routed to retrieval:
the agent_nodes.py router records the error and falls back to
`answer_direct` with `use_rag = false`, and the agent_nodes_mcp.py router
propagates the exception.  Only malformed-but-returned output defaults to
retrieval, and only in the MCP router: any reply other than `direct`
(stripped, lowercased) sets `use_rag = true` and routes to `retrieve`. -/
theorem claim2_amended (s : AgentState) (sm : AgentStateMCP) (e : String)
    (out : List Char) :
    ((master_agent_node s (.error e)).use_rag = false
      ∧ (master_agent_node s (.error e)).next_action = "answer_direct"
      ∧ (master_agent_node s (.error e)).error = "Classification error: " ++ e)
    ∧ master_agent_node_mcp true sm (.error e) = .error e
    ∧ ((trimWS out).map Char.toLower ≠ "direct".toList →
        master_agent_node_mcp true sm (.ok out) = .ok { sm with use_rag := true }
        ∧ route_after_master_mcp { sm with use_rag := true } = "retrieve") := by
  refine ⟨⟨rfl, rfl, rfl⟩, rfl, fun h => ⟨?_, rfl⟩⟩
  have h2 : (trimWS out).map Char.toLower ≠ ['d', 'i', 'r', 'e', 'c', 't'] := h
  simp [master_agent_node_mcp, h2]

/-- C2 witness: concrete instances of the amended routing — an exception in
the plain router and a malformed `RAG` reply in the MCP router. -/
theorem claim2_witness :
    master_agent_node_mcp true (create_initial_state_mcp "q2".toList) (.ok "RAG".toList)
        = .ok { create_initial_state_mcp "q2".toList with use_rag := true }
    ∧ route_after_master_mcp { create_initial_state_mcp "q2".toList with use_rag := true }
        = "retrieve" :=
  (claim2_amended (create_initial_state "q2".toList) (create_initial_state_mcp "q2".toList)
    "boom" "RAG".toList).2.2 (by decide)

/-! ## Claim C3 — retrieval failure and empty-retrieval fallback -/

/-- C3: in both routers, a raised retrieval call leaves the request alive:
the error is recorded in the state, `retrieved_docs` is set to `[]`, and
routing still proceeds to exactly one of the two answer states, choosing
the answer-with-context state iff the retrieved sequence is non-empty. -/
theorem claim3_retrieval_fallback (sm : AgentStateMCP) (s : AgentState)
    (r : Except String (List (List (String × String))))
    (qr : Except String QueryResult) :
    (∀ e, r = .error e →
      (retrieval_node_mcp sm r).retrieved_docs = [] ∧ (retrieval_node_mcp sm r).error = e)
    ∧ (route_after_retrieval_mcp (retrieval_node_mcp sm r) = "answer_with_rag"
        ↔ (retrieval_node_mcp sm r).retrieved_docs ≠ [])
    ∧ (route_after_retrieval_mcp (retrieval_node_mcp sm r) = "answer_with_rag"
        ∨ route_after_retrieval_mcp (retrieval_node_mcp sm r) = "answer_direct")
    ∧ (∀ e, qr = .error e →
        (retrieval_node s qr).retrieved_docs = []
        ∧ (retrieval_node s qr).error = "Retrieval error: " ++ e
        ∧ (retrieval_node s qr).next_action = "answer_direct")
    ∧ (route_after_retrieval (retrieval_node s qr) = "generate_answer"
        ↔ (retrieval_node s qr).retrieved_docs ≠ [])
    ∧ (route_after_retrieval (retrieval_node s qr) = "generate_answer"
        ∨ route_after_retrieval (retrieval_node s qr) = "answer_direct") := by
  refine ⟨?_, ?_, ?_, ?_, ?_, ?_⟩
  · intro e he
    subst he
    exact ⟨rfl, rfl⟩
  · rcases r with e | docs
    · simp [retrieval_node_mcp, route_after_retrieval_mcp]
    · rcases docs with _ | ⟨d, ds⟩
      · simp [retrieval_node_mcp, route_after_retrieval_mcp]
      · simp [retrieval_node_mcp, route_after_retrieval_mcp]
  · rcases r with e | docs
    · exact Or.inr rfl
    · rcases docs with _ | ⟨d, ds⟩
      · exact Or.inr rfl
      · exact Or.inl rfl
  · intro e he
    subst he
    exact ⟨rfl, rfl, rfl⟩
  · rcases qr with e | res
    · simp [retrieval_node, route_after_retrieval]
    · rcases hdocs : res.documents with _ | ⟨d, ds⟩
      · simp [retrieval_node, route_after_retrieval, hdocs]
      · simp [retrieval_node, route_after_retrieval, hdocs]
  · rcases qr with e | res
    · exact Or.inr rfl
    · rcases hdocs : res.documents with _ | ⟨d, ds⟩
      · refine Or.inr ?_
        simp [retrieval_node, route_after_retrieval, hdocs]
      · refine Or.inl ?_
        simp [retrieval_node, route_after_retrieval, hdocs]

/-- C3 witness: a concrete failed retrieval in the MCP router records the
error and clears the retrieved documents. -/
theorem claim3_witness :
    (retrieval_node_mcp (create_initial_state_mcp "q3".toList) (.error "down")).retrieved_docs = []
    ∧ (retrieval_node_mcp (create_initial_state_mcp "q3".toList) (.error "down")).error = "down" :=
  (claim3_retrieval_fallback (create_initial_state_mcp "q3".toList)
    (create_initial_state "q3".toList) (.error "down") (.error "down")).1 "down" rfl

/-! ## Claim C4 — auto-start probe, bounded polling, startup timeout -/

/-- If the probe never succeeds and the child stays alive, the polling loop
consumes its whole attempt budget, one interval per attempt, and reports a
startup timeout. -/
theorem pollLoop_timeout (probe alive : Nat → Bool) (interval : Nat)
    (hp : ∀ i, probe i = false) (ha : ∀ i, alive i = true) :
    ∀ budget i, pollLoop probe alive interval budget i
      = (.serverStartupTimeout, budget * interval) := by
  intro budget
  induction budget with
  | zero => intro i; simp [pollLoop]
  | succ n ih =>
    intro i
    simp only [pollLoop, hp i, ha i, Bool.not_true, Bool.false_eq_true, if_false, ih (i + 1)]
    refine Prod.ext rfl ?_
    show interval + n * interval = (n + 1) * interval
    ring

/-- C4 (modelled from the spec, section 4.3): the transport client takes a
server URL and an auto-start flag; it probes liveness before the first
call, and a reachable server means no spawn and no wait.  When the server
is unreachable, auto-start is enabled, and the spawned child never becomes
healthy, the client stops with `ServerStartupTimeout` after exactly
`max_attempts` polls — elapsed time `max_attempts × poll_interval`, never
an unbounded hang. -/
theorem claim4_auto_start_bounded :
    (∀ (cfg : MCPClientConfig) (probe alive : Nat → Bool), probe 0 = true →
      ensure_server_running cfg probe alive
        = { result := .healthy, spawned := false, elapsed := 0 })
    ∧ (∀ (cfg : MCPClientConfig) (probe alive : Nat → Bool),
        cfg.auto_start_server = true →
        (∀ i, probe i = false) → (∀ i, alive i = true) →
        (ensure_server_running cfg probe alive).result = .serverStartupTimeout
        ∧ (ensure_server_running cfg probe alive).spawned = true
        ∧ (ensure_server_running cfg probe alive).elapsed
            = cfg.max_attempts * cfg.poll_interval) := by
  constructor
  · intro cfg probe alive h0
    simp [ensure_server_running, h0]
  · intro cfg probe alive hauto hp ha
    have hloop := pollLoop_timeout probe alive cfg.poll_interval hp ha cfg.max_attempts 1
    simp [ensure_server_running, hp 0, hauto, hloop]

/-- C4 witness: with the deployed configuration (auto-start on, interval 1,
30 attempts) and a server that never becomes healthy, the client times out
after exactly 30 time units. -/
theorem claim4_witness :
    (ensure_server_running
        { server_url := "http0.0.0.0", auto_start_server := true,
          poll_interval := 1, max_attempts := 30 }
        (fun _ => false) (fun _ => true)).result = .serverStartupTimeout
    ∧ (ensure_server_running
        { server_url := "http0.0.0.0", auto_start_server := true,
          poll_interval := 1, max_attempts := 30 }
        (fun _ => false) (fun _ => true)).elapsed = 30 := by
  have h := claim4_auto_start_bounded.2
    { server_url := "http0.0.0.0", auto_start_server := true,
      poll_interval := 1, max_attempts := 30 }
    (fun _ => false) (fun _ => true) rfl (fun _ => rfl) (fun _ => rfl)
  exact ⟨h.1, h.2.2⟩

end Rag
